import Mathlib

/-!
Shallow embedding of `src/main.py`, a retry-driven bulk-fetch pipeline:
`process_activation_id` fetches one page per numeric identifier and returns a
dict `{id, secret_code, status}`; `main` repeatedly dispatches the pending
identifiers, appends the outcomes with status 200 or 404 to an append-only
csv, collects the rest into a retry list, and loops (with a cooldown sleep)
until the retry list is empty, after which it builds a zip archive.

Network behaviour, the filesystem, and parsed HTML documents are modelled as
explicit values handed to the embedded functions; exceptions raised by the
Python code inside `try` blocks are modelled as constructors of the input
type, so that the embedded functions are total exactly because the source
catches every exception.
-/

namespace CCExt

/-- Little-endian base-10 digit list of `n`, with explicit structural fuel.
`digitsLE n n` is the digit list of `n`; `digitsLE fuel 0 = []` (Python
renders `0` purely via zero padding). -/
def digitsLE : Nat → Nat → List Nat
  | 0, _ => []
  | _ + 1, 0 => []
  | fuel + 1, n + 1 => (n + 1) % 10 :: digitsLE fuel ((n + 1) / 10)

/-- Numeric value of a little-endian digit list. -/
def valLE : List Nat → Nat
  | [] => 0
  | d :: ds => 10 * valLE ds + d

/-- Embeds the Python f-string `f"{n:06}"` (line 84): the base-10 digits of
`n`, left-padded with the character `'0'` to width 6. -/
def pyFormat06 (n : Nat) : String :=
  String.mk
    ((List.replicate (6 - ((digitsLE n n).reverse).length) 0 ++ (digitsLE n n).reverse).map
      fun d => Char.ofNat (48 + d))

/-- Embeds Python `int(s)` (line 247) on the digit strings produced by
`pyFormat06`: fold the decimal digits left to right. -/
def pyInt (s : String) : Nat :=
  s.data.foldl (fun a c => 10 * a + (c.toNat - 48)) 0

lemma valLE_digitsLE : ∀ fuel n, n ≤ fuel → valLE (digitsLE fuel n) = n := by
  intro fuel
  induction fuel with
  | zero =>
    intro n hn
    interval_cases n
    rfl
  | succ f ih =>
    intro n hn
    match n with
    | 0 => rfl
    | m + 1 =>
      have hdiv : (m + 1) / 10 ≤ f := by
        have h1 : (m + 1) / 10 < m + 1 := Nat.div_lt_self (Nat.succ_pos m) (by norm_num)
        omega
      simp only [digitsLE, valLE, ih _ hdiv]
      omega

lemma digitsLE_lt : ∀ fuel n d, d ∈ digitsLE fuel n → d < 10 := by
  intro fuel
  induction fuel with
  | zero =>
    intro n d hd
    simp [digitsLE] at hd
  | succ f ih =>
    intro n d hd
    match n with
    | 0 => simp [digitsLE] at hd
    | m + 1 =>
      simp only [digitsLE, List.mem_cons] at hd
      rcases hd with h | h
      · subst h
        exact Nat.mod_lt _ (by norm_num)
      · exact ih _ _ h

lemma char_toNat_digit (d : Nat) (h : d < 10) : (Char.ofNat (48 + d)).toNat = 48 + d := by
  interval_cases d <;> decide

lemma foldl_digits_replicate_zero (k : Nat) :
    List.foldl (fun a d => 10 * a + d) 0 (List.replicate k 0) = 0 := by
  induction k with
  | zero => rfl
  | succ k ih => simpa [List.replicate_succ] using ih

lemma valLE_eq_foldr (l : List Nat) : valLE l = l.foldr (fun d a => 10 * a + d) 0 := by
  induction l with
  | nil => rfl
  | cons d ds ih => simp [valLE, ih]

/-- Round trip: Python `int(f"{n:06}")` gives back `n` — this is what makes
`retry_ids.append(int(data['id']))` re-enqueue the original identifier. -/
lemma pyInt_pyFormat06 (n : Nat) : pyInt (pyFormat06 n) = n := by
  unfold pyInt pyFormat06
  rw [List.foldl_map]
  have hmem : ∀ (a : Nat),
      ∀ d ∈ List.replicate (6 - ((digitsLE n n).reverse).length) 0 ++ (digitsLE n n).reverse,
      10 * a + ((Char.ofNat (48 + d)).toNat - 48) = 10 * a + d := by
    intro a d hd
    have hd10 : d < 10 := by
      rcases List.mem_append.1 hd with h | h
      · have := List.eq_of_mem_replicate h
        omega
      · exact digitsLE_lt _ _ _ (List.mem_reverse.1 h)
    rw [char_toNat_digit d hd10]
    omega
  rw [List.foldl_ext _ _ _ hmem, List.foldl_append, foldl_digits_replicate_zero,
    List.foldl_reverse]
  rw [← valLE_eq_foldr]
  exact valLE_digitsLE n n le_rfl

lemma pyFormat06_injective : Function.Injective pyFormat06 :=
  Function.LeftInverse.injective pyInt_pyFormat06

/-- The parts of a fetched HTML document that `process_activation_id`
inspects. `clipboardValue` is the `value` attribute of the `<input>` inside
the `data-controller="copytoclipboard"` div: `none` when the div, the input,
or the attribute is missing (the three cases the code collapses into "leave
the sentinel"); note the code's truthiness test also ignores `some ""`.
`hasInstructionCard` records whether `find('div', class_='instruction-card')`
succeeds; `assetRefs` are the stylesheet/img URLs referenced by the extracted
fragment. -/
structure PageDoc where
  clipboardValue : Option String
  hasInstructionCard : Bool
  assetRefs : List String
deriving DecidableEq

/-- One attempt of `session.get` plus the rest of the `try` block of
`process_activation_id`, as an explicit value: `exn` = the request raised
(DNS, timeout, ...); `resp status doc` = a response with this status code and
document arrived and the remaining processing raised nothing;
`respThenExn status` = a response arrived (status was assigned) but a later
statement inside the `try` block raised (e.g. while parsing or saving HTML). -/
inductive FetchResult where
  | exn : FetchResult
  | resp : Nat → PageDoc → FetchResult
  | respThenExn : Nat → FetchResult
deriving DecidableEq

/-- The dict returned by `process_activation_id` (lines 87-91). -/
structure Outcome where
  id : String
  secret_code : String
  status : Nat
deriving DecidableEq

/-- Embeds `process_activation_id` (lines 78-149). The network and document
are passed in as `fr`; every exception the Python code can observe is a
constructor of `FetchResult`, and the `except` clause (lines 145-147) becomes
the `exn`/`respThenExn` branches, so the Lean function is total exactly
because the source never lets an exception escape. The asset/file side
effects (lines 110-143) do not touch the returned dict and are embedded
separately (`download_asset`, `rewrite_assets`); an exception inside them is
the `respThenExn` case. -/
def process_activation_id (i : Nat) (fr : FetchResult) : Outcome :=
  match fr with
  | .exn => { id := pyFormat06 i, secret_code := "Error", status := 0 }
  | .respThenExn _ => { id := pyFormat06 i, secret_code := "Error", status := 0 }
  | .resp status doc =>
    match doc.clipboardValue with
    | some v =>
      if status == 200 && v != "" then
        { id := pyFormat06 i, secret_code := v, status := status }
      else
        { id := pyFormat06 i, secret_code := "Not Found", status := status }
    | none => { id := pyFormat06 i, secret_code := "Not Found", status := status }

/-- Embeds `download_asset` (lines 44-75). The md5-derived file name
`save_name` is abstracted as the parameter `saveName`; `fileExists` models
`os.path.exists(save_path)`; `net` models the asset `session.get`: `none` =
an exception was raised inside the `try` (caught, line 74 returns the
original url), `some s` = a response with status `s` (a file is written only
when `s == 200`, but `assets/{save_name}` is returned either way). Returns
the string stored into the tag attribute and whether a file was written. -/
def download_asset (fileExists : Bool) (net : Option Nat) (url saveName : String) :
    String × Bool :=
  if fileExists then ("assets/" ++ saveName, false)
  else
    match net with
    | none => (url, false)
    | some s =>
      if s == 200 then ("assets/" ++ saveName, true) else ("assets/" ++ saveName, false)

/-- Embeds the asset-rewriting loops of `process_activation_id`
(lines 126-135): each stylesheet/img reference in the produced document is
replaced by whatever string `download_asset` returns for it. `env u` gives
the file-exists flag and network result for URL `u`, `saveName u` its derived
local name. -/
def rewrite_assets (env : String → Bool × Option Nat) (saveName : String → String)
    (refs : List String) : List String :=
  refs.map fun u => (download_asset (env u).1 (env u).2 u (saveName u)).1

/-- The settlement test of the main loop (line 238):
`if status == 200 or status == 404`. -/
def statusTerminal (status : Nat) : Bool :=
  status == 200 || status == 404

/-- Embeds one iteration of the `while` loop of `main` (lines 212-249): every
pending id is dispatched, outcomes with status 200/404 are written to the csv
(collected in the first component, in order), the others are re-enqueued via
`retry_ids.append(int(data['id']))`. `fetch i` is the network behaviour of
identifier `i` this round. `as_completed` yields outcomes in nondeterministic
order; the embedding fixes submission order, which none of the claims (about
counts, sets and multisets) distinguish. -/
def run_round (fetch : Nat → FetchResult) : List Nat → List Outcome × List Nat
  | [] => ([], [])
  | i :: rest =>
    let data := process_activation_id i (fetch i)
    let sr := run_round fetch rest
    if statusTerminal data.status then (data :: sr.1, sr.2)
    else (sr.1, pyInt data.id :: sr.2)

/-- The header row written once to a fresh output csv (line 204). -/
def headerRow : List String :=
  ["Activation ID", "Secret Code", "Status Code"]

/-- Embeds `writer.writerow([data['id'], data['secret_code'], data['status']])`
(lines 240-244); the csv writer renders the integer status as its decimal
string. -/
def outcomeRow (o : Outcome) : List String :=
  [o.id, o.secret_code, Nat.repr o.status]

/-- First column of a csv row (the rendered identifier). -/
def rowId (r : List String) : String :=
  r.headD ""

/-- Embeds the startup sink initialisation of `main` (lines 195-204):
`existing` is the prior contents of `OUTPUT_CSV` (`none` = the file does not
exist). A missing file is created holding exactly the header row; an existing
file is left untouched. -/
def initial_sink : Option (List (List String)) → List (List String)
  | some rows => rows
  | none => [headerRow]

/-- Embeds `get_ids_from_csv` (lines 168-186). `file` is `none` when `open`
raises `FileNotFoundError` (caught: an error is printed and `[]` returned).
Each row is abstracted to its `Activation ID` cell: `none` = the column is
absent from the row, `some none` = `int(...)` raises `ValueError` (row
skipped via `pass`), `some (some n)` = the cell parses to `n`. -/
def get_ids_from_csv (file : Option (List (Option (Option Nat)))) : List Nat :=
  match file with
  | none => []
  | some rows => rows.filterMap fun cell => cell.bind id

/-- Embeds the `while ids_to_process:` retry loop of `main` (lines 206-259).
`oracle r i` is the network behaviour of identifier `i` during iteration `r`.
The loop has no retry cap and need not terminate, so it carries explicit
`fuel`: `some sink` means the retry list became empty within `fuel`
iterations and the loop exited with the given csv contents; `none` means it
was still running. Each iteration appends its settled rows to the csv (the
source opens the file in append mode every round). -/
def run_loop (oracle : Nat → Nat → FetchResult) :
    Nat → Nat → List Nat → List (List String) → Option (List (List String))
  | 0, _, ids, sink => if ids.isEmpty then some sink else none
  | fuel + 1, iter, ids, sink =>
    if ids.isEmpty then some sink
    else
      let sr := run_round (oracle iter) ids
      run_loop oracle fuel (iter + 1) sr.2 (sink ++ sr.1.map outcomeRow)

/-- Embeds `main` (lines 189-262) end to end: load the ids, initialise the
sink, run the retry loop from iteration 1, and — only if the loop reaches its
Done state — run `create_zip_archive` (the `Bool` records that the archive
step ran). `none` = the process is still looping after `fuel` iterations. -/
def mainRun (oracle : Nat → Nat → FetchResult) (fuel : Nat)
    (input : Option (List (Option (Option Nat))))
    (existing : Option (List (List String))) : Option (List (List String) × Bool) :=
  match run_loop oracle fuel 1 (get_ids_from_csv input) (initial_sink existing) with
  | some sink => some (sink, true)
  | none => none

/-- The retry set as it stands after `k` further iterations of the loop,
starting from iteration `iter` with pending ids `ids`. -/
def pendingAfter (oracle : Nat → Nat → FetchResult) : Nat → Nat → List Nat → List Nat
  | _, 0, ids => ids
  | iter, k + 1, ids => pendingAfter oracle (iter + 1) k (run_round (oracle iter) ids).2

/-- The csv contents after `k` further iterations of the loop. -/
def sinkAfter (oracle : Nat → Nat → FetchResult) :
    Nat → Nat → List Nat → List (List String) → List (List String)
  | _, 0, _, sink => sink
  | iter, k + 1, ids, sink =>
    sinkAfter oracle (iter + 1) k (run_round (oracle iter) ids).2
      (sink ++ ((run_round (oracle iter) ids).1).map outcomeRow)

/-- The spec's three-way outcome classification (§4.1). The source has no
named classifier — its policy lives in the `status == 200 or status == 404`
test — so this definition follows the spec's words and is related to the
source's routing by the claim-C2 theorem. -/
inductive Classification where
  | terminalSuccess : Classification
  | terminalAbsent : Classification
  | transient : Classification
deriving DecidableEq

/-- The spec's `classify` (§4.1), written from the spec's words. -/
def classify (status : Nat) : Classification :=
  if status == 200 then .terminalSuccess
  else if status == 404 then .terminalAbsent
  else .transient

lemma process_id (i : Nat) (fr : FetchResult) :
    (process_activation_id i fr).id = pyFormat06 i := by
  cases fr with
  | exn => rfl
  | respThenExn s => rfl
  | resp s doc =>
    cases h : doc.clipboardValue with
    | none => simp [process_activation_id, h]
    | some v =>
      simp only [process_activation_id, h]
      split <;> rfl

/-- Characterisation of one round: the settled outcomes are (in order) those
of the ids whose status passes the `200 or 404` test, and the retry list is
exactly the sub-list of ids that fail it (the `int ∘ format` round trip is
the identity). -/
lemma run_round_eq (fetch : Nat → FetchResult) (ids : List Nat) :
    run_round fetch ids =
      ((ids.filter fun i => statusTerminal (process_activation_id i (fetch i)).status).map
          fun i => process_activation_id i (fetch i),
        ids.filter fun i => !statusTerminal (process_activation_id i (fetch i)).status) := by
  induction ids with
  | nil => rfl
  | cons i rest ih =>
    simp only [run_round, ih, List.filter_cons]
    by_cases h : statusTerminal (process_activation_id i (fetch i)).status
    · simp [h]
    · simp [h, process_id, pyInt_pyFormat06]

lemma countP_or_split (l : List Nat) (p q : Nat → Bool)
    (hpq : ∀ a, ¬(p a = true ∧ q a = true)) :
    l.countP (fun a => p a || q a) = l.countP p + l.countP q := by
  induction l with
  | nil => rfl
  | cons a rest ih =>
    cases hp : p a <;> cases hq : q a
    · simp [List.countP_cons, hp, hq, ih]
    · simp [List.countP_cons, hp, hq, ih]
      omega
    · simp [List.countP_cons, hp, hq, ih]
      omega
    · exact absurd ⟨hp, hq⟩ (hpq a)

/-- What a terminating run of the retry loop appends to the sink: one row per
input identifier up to permutation, every row carrying status `"200"` or
`"404"`. -/
lemma run_loop_spec (oracle : Nat → Nat → FetchResult) :
    ∀ fuel iter ids sink final,
      run_loop oracle fuel iter ids sink = some final →
      ∃ rows, final = sink ++ rows ∧
        List.Perm (rows.map rowId) (ids.map pyFormat06) ∧
        ∀ r ∈ rows, ∃ i v, r = [pyFormat06 i, v, "200"] ∨ r = [pyFormat06 i, v, "404"] := by
  intro fuel
  induction fuel with
  | zero =>
    intro iter ids sink final h
    simp only [run_loop] at h
    by_cases hids : ids.isEmpty
    · rw [if_pos hids] at h
      have hids' : ids = [] := List.isEmpty_iff.1 hids
      refine ⟨[], ?_, ?_, ?_⟩
      · simpa using (Option.some.inj h).symm
      · simp [hids']
      · intro r hr
        simp at hr
    · rw [if_neg hids] at h
      simp at h
  | succ f ih =>
    intro iter ids sink final h
    simp only [run_loop] at h
    by_cases hids : ids.isEmpty
    · rw [if_pos hids] at h
      have hids' : ids = [] := List.isEmpty_iff.1 hids
      refine ⟨[], ?_, ?_, ?_⟩
      · simpa using (Option.some.inj h).symm
      · simp [hids']
      · intro r hr
        simp at hr
    · rw [if_neg hids] at h
      obtain ⟨rows', hfinal, hperm, hrows⟩ := ih _ _ _ _ h
      refine ⟨((run_round (oracle iter) ids).1).map outcomeRow ++ rows', ?_, ?_, ?_⟩
      · rw [hfinal, List.append_assoc]
      · have hsettled :
            List.map rowId (((run_round (oracle iter) ids).1).map outcomeRow) =
              (ids.filter fun i =>
                statusTerminal (process_activation_id i (oracle iter i)).status).map
                pyFormat06 := by
          rw [run_round_eq]
          simp [List.map_map, Function.comp, outcomeRow, rowId, process_id]
        have hretry :
            ((run_round (oracle iter) ids).2).map pyFormat06 =
              (ids.filter fun i =>
                !statusTerminal (process_activation_id i (oracle iter i)).status).map
                pyFormat06 := by
          rw [run_round_eq]
        rw [List.map_append, hsettled]
        refine ((hretry ▸ hperm).append_left _).trans ?_
        rw [← List.map_append]
        exact (List.filter_append_perm _ ids).map pyFormat06
      · intro r hr
        rcases List.mem_append.1 hr with hmem | hmem
        · obtain ⟨o, ho, hro⟩ := List.mem_map.1 hmem
          simp only [run_round_eq] at ho
          obtain ⟨i, hi, hoi⟩ := List.mem_map.1 ho
          have hterm : statusTerminal (process_activation_id i (oracle iter i)).status :=
            (List.mem_filter.1 hi).2
          have hstat : (process_activation_id i (oracle iter i)).status = 200 ∨
              (process_activation_id i (oracle iter i)).status = 404 := by
            simp only [statusTerminal, Bool.or_eq_true, beq_iff_eq] at hterm
            exact hterm
          subst hro
          subst hoi
          refine ⟨i, (process_activation_id i (oracle iter i)).secret_code, ?_⟩
          rcases hstat with hs | hs
          · left
            unfold outcomeRow
            rw [process_id, hs]
            rfl
          · right
            unfold outcomeRow
            rw [process_id, hs]
            rfl
        · exact hrows r hmem

/-- The retry loop reaches Done within `fuel` iterations exactly when some
prefix of rounds empties the retry set. -/
lemma run_loop_some_iff (oracle : Nat → Nat → FetchResult) :
    ∀ fuel iter ids sink,
      (∃ final, run_loop oracle fuel iter ids sink = some final) ↔
        ∃ k, k ≤ fuel ∧ pendingAfter oracle iter k ids = [] := by
  intro fuel
  induction fuel with
  | zero =>
    intro iter ids sink
    constructor
    · rintro ⟨final, hf⟩
      simp only [run_loop] at hf
      by_cases hids : ids.isEmpty
      · exact ⟨0, le_rfl, List.isEmpty_iff.1 hids⟩
      · rw [if_neg hids] at hf
        simp at hf
    · rintro ⟨k, hk, hp⟩
      interval_cases k
      have hids' : ids = [] := hp
      exact ⟨sink, by simp [run_loop, hids']⟩
  | succ f ih =>
    intro iter ids sink
    by_cases hids : ids.isEmpty
    · have hids' : ids = [] := List.isEmpty_iff.1 hids
      constructor
      · intro _
        exact ⟨0, by omega, hids'⟩
      · intro _
        exact ⟨sink, by simp [run_loop, hids]⟩
    · have hne : ids ≠ [] := by
        intro hc
        exact hids (by simp [hc])
      constructor
      · rintro ⟨final, hf⟩
        simp only [run_loop] at hf
        rw [if_neg hids] at hf
        obtain ⟨k, hk, hp⟩ :=
          (ih (iter + 1) (run_round (oracle iter) ids).2
            (sink ++ ((run_round (oracle iter) ids).1).map outcomeRow)).1 ⟨final, hf⟩
        exact ⟨k + 1, by omega, hp⟩
      · rintro ⟨k, hk, hp⟩
        match k with
        | 0 => exact absurd hp hne
        | k + 1 =>
          obtain ⟨final, hf⟩ :=
            (ih (iter + 1) (run_round (oracle iter) ids).2
              (sink ++ ((run_round (oracle iter) ids).1).map outcomeRow)).2
              ⟨k, by omega, hp⟩
          refine ⟨final, ?_⟩
          simp only [run_loop]
          rw [if_neg hids]
          exact hf

/-- An identifier whose status is never 200/404 keeps the loop running:
whatever the fuel, the loop is still not Done. -/
lemma run_loop_none_of_always_transient (oracle : Nat → Nat → FetchResult) (j : Nat)
    (hj : ∀ r, statusTerminal (process_activation_id j (oracle r j)).status = false) :
    ∀ fuel iter ids sink, j ∈ ids → run_loop oracle fuel iter ids sink = none := by
  intro fuel
  induction fuel with
  | zero =>
    intro iter ids sink hmem
    have hne : ¬ids.isEmpty = true := by
      intro hc
      rw [List.isEmpty_iff.1 hc] at hmem
      simp at hmem
    simp [run_loop, hne]
  | succ f ih =>
    intro iter ids sink hmem
    have hne : ¬ids.isEmpty = true := by
      intro hc
      rw [List.isEmpty_iff.1 hc] at hmem
      simp at hmem
    have hretry : j ∈ (run_round (oracle iter) ids).2 := by
      simp only [run_round_eq]
      exact List.mem_filter.2 ⟨hmem, by simp [hj iter]⟩
    simp only [run_loop]
    rw [if_neg hne]
    exact ih (iter + 1) _ _ hretry

/-- Rows already in the sink are never touched: the sink after any number of
further rounds still starts with them. -/
lemma prefix_sinkAfter (oracle : Nat → Nat → FetchResult) :
    ∀ k iter ids sink, sink <+: sinkAfter oracle iter k ids sink := by
  intro k
  induction k with
  | zero =>
    intro iter ids sink
    exact List.prefix_refl _
  | succ k ih =>
    intro iter ids sink
    simp only [sinkAfter]
    exact List.IsPrefix.trans (List.prefix_append _ _) (ih (iter + 1) _ _)

/-- A terminating loop neither adds nor removes a header row. -/
lemma count_headerRow_run_loop (oracle : Nat → Nat → FetchResult)
    (fuel iter : Nat) (ids : List Nat) (sink final : List (List String))
    (h : run_loop oracle fuel iter ids sink = some final) :
    final.count headerRow = sink.count headerRow := by
  obtain ⟨rows, hfinal, _, hrows⟩ := run_loop_spec oracle fuel iter ids sink final h
  subst hfinal
  rw [List.count_append]
  have hzero : rows.count headerRow = 0 := by
    rw [List.count_eq_zero]
    intro hmem
    obtain ⟨i, v, hcase⟩ := hrows _ hmem
    rcases hcase with hr | hr <;> simp [headerRow] at hr
  omega

/-- The spec's classifier agrees with the source's settlement test: a status
is classified Transient exactly when `status == 200 or status == 404` fails. -/
lemma classify_transient_iff (s : Nat) :
    classify s = Classification.transient ↔ statusTerminal s = false := by
  by_cases h1 : s = 200
  · subst h1
    simp [classify, statusTerminal]
  · by_cases h2 : s = 404
    · subst h2
      simp [classify, statusTerminal]
    · simp [classify, statusTerminal, h1, h2]

/-- Claim C2: outcome classification is a pure, idempotent function of the
status code alone — `classify 200` is Terminal-Success, `classify 404`
Terminal-Absent, and 429, 0 and every other status (e.g. 500) are Transient
— and in every round a Transient status routes the identifier into the retry
list while a Terminal one routes its outcome into the settled sequence
written to the durable sink. -/
theorem classify_policy_and_routing :
    classify 200 = Classification.terminalSuccess ∧
    classify 404 = Classification.terminalAbsent ∧
    classify 429 = Classification.transient ∧
    classify 0 = Classification.transient ∧
    classify 500 = Classification.transient ∧
    (∀ s, s ≠ 200 → s ≠ 404 → classify s = Classification.transient) ∧
    (∀ s, classify s = Classification.transient ↔ statusTerminal s = false) ∧
    (∀ fetch ids i, i ∈ ids →
      (classify (process_activation_id i (fetch i)).status = Classification.transient →
        i ∈ (run_round fetch ids).2) ∧
      (classify (process_activation_id i (fetch i)).status ≠ Classification.transient →
        process_activation_id i (fetch i) ∈ (run_round fetch ids).1)) := by
  refine ⟨rfl, rfl, rfl, rfl, rfl, ?_, classify_transient_iff, ?_⟩
  · intro s h200 h404
    simp [classify, h200, h404]
  · intro fetch ids i hmem
    constructor
    · intro htrans
      have hf := (classify_transient_iff _).1 htrans
      simp only [run_round_eq]
      exact List.mem_filter.2 ⟨hmem, by simp [hf]⟩
    · intro hterm
      have hf : statusTerminal (process_activation_id i (fetch i)).status = true := by
        cases hb : statusTerminal (process_activation_id i (fetch i)).status
        · exact absurd ((classify_transient_iff _).2 hb) hterm
        · rfl
      simp only [run_round_eq]
      exact List.mem_map.2 ⟨i, List.mem_filter.2 ⟨hmem, hf⟩, rfl⟩

/-- Witness for claim C2 at a concrete transient input: a 429 response routes
identifier 7 into the retry list. -/
theorem classify_policy_and_routing_witness :
    7 ∈ (run_round (fun _ => FetchResult.resp 429 ⟨none, false, []⟩) [7]).2 :=
  (classify_policy_and_routing.2.2.2.2.2.2.2
    (fun _ => FetchResult.resp 429 ⟨none, false, []⟩) [7] 7 (by decide)).1 (by decide)

/-- Claim C3: per round, the settled sequence has size N+M (N identifiers
with status 200, M with 404), the retry set has size K (every other status),
and the settled identifiers together with the retry identifiers are a
permutation of the round's input (so their union is the input and, the
routing being a function of the identifier, they are disjoint). -/
theorem round_partition_counts (fetch : Nat → FetchResult) (ids : List Nat) :
    ((run_round fetch ids).1).length =
        ids.countP (fun i => (process_activation_id i (fetch i)).status == 200) +
          ids.countP (fun i => (process_activation_id i (fetch i)).status == 404) ∧
    ((run_round fetch ids).2).length =
        ids.countP (fun i => !((process_activation_id i (fetch i)).status == 200 ||
          (process_activation_id i (fetch i)).status == 404)) ∧
    List.Perm
      (((run_round fetch ids).1).map (fun o => pyInt o.id) ++ (run_round fetch ids).2) ids ∧
    ∀ x ∈ ((run_round fetch ids).1).map (fun o => pyInt o.id),
      x ∉ (run_round fetch ids).2 := by
  refine ⟨?_, ?_, ?_, ?_⟩
  · simp only [run_round_eq, List.length_map, ← List.countP_eq_length_filter]
    simp only [statusTerminal]
    refine countP_or_split ids _ _ ?_
    rintro a ⟨h1, h2⟩
    rw [beq_iff_eq] at h1 h2
    omega
  · simp only [run_round_eq, ← List.countP_eq_length_filter, statusTerminal]
  · simp only [run_round_eq, List.map_map]
    have hmap :
        ((ids.filter fun i =>
            statusTerminal (process_activation_id i (fetch i)).status).map
          ((fun o => pyInt o.id) ∘ fun i => process_activation_id i (fetch i))) =
          ids.filter fun i =>
            statusTerminal (process_activation_id i (fetch i)).status := by
      simp [Function.comp_def, process_id, pyInt_pyFormat06]
    rw [hmap]
    exact List.filter_append_perm _ ids
  · intro x hx hx2
    simp only [run_round_eq, List.map_map] at hx
    obtain ⟨i, hi, hxi⟩ := List.mem_map.1 hx
    have hT := (List.mem_filter.1 hi).2
    have hx_eq : x = i := by
      rw [← hxi]
      simp [Function.comp_def, process_id, pyInt_pyFormat06]
    subst hx_eq
    simp only [run_round_eq] at hx2
    have hT2 := (List.mem_filter.1 hx2).2
    rw [hT] at hT2
    simp at hT2

/-- Witness for claim C3 at a concrete input: with a 200 response, identifier
1 is settled and therefore not in the retry set. -/
theorem round_partition_counts_witness :
    1 ∉ (run_round (fun _ => FetchResult.resp 200 ⟨some "ABC123", true, []⟩) [1]).2 :=
  (round_partition_counts (fun _ => FetchResult.resp 200 ⟨some "ABC123", true, []⟩) [1]).2.2.2
    1 (by decide)

/-- Claim C5: `process_activation_id` never propagates an exception — every
exceptional execution is already a value of `FetchResult` (the source's
`except` clause), the embedded function is total on all of them, each one
yields status 0 with payload "Error", and every identifier of a round is
accounted for (settled or retried), so no single failure aborts a batch. -/
theorem fetch_exception_maps_to_error (i : Nat) (fr : FetchResult)
    (h : fr = FetchResult.exn ∨ ∃ s, fr = FetchResult.respThenExn s) :
    process_activation_id i fr =
      { id := pyFormat06 i, secret_code := "Error", status := 0 } ∧
    ∀ fetch ids,
      ((run_round fetch ids).1).length + ((run_round fetch ids).2).length = ids.length := by
  constructor
  · rcases h with h | ⟨s, h⟩ <;> subst h <;> rfl
  · intro fetch ids
    have hp :=
      (List.filter_append_perm
        (fun i => statusTerminal (process_activation_id i (fetch i)).status) ids).length_eq
    rw [List.length_append] at hp
    simp only [run_round_eq, List.length_map]
    exact hp

/-- Witness for claim C5: a raised request exception yields the error
outcome for identifier 1. -/
theorem fetch_exception_maps_to_error_witness :
    process_activation_id 1 FetchResult.exn =
      { id := "000001", secret_code := "Error", status := 0 } :=
  (fetch_exception_maps_to_error 1 FetchResult.exn (Or.inl rfl)).1

/-- Claim C6: a page that loads with status 200 but offers no extraction
target (no clipboard input value — the code's truthiness test also discards
an empty value) keeps status 200 with the sentinel payload "Not Found"; the
outcome is settled and its sink row is `[id, "Not Found", "200"]` —
extraction failure never changes the status. -/
theorem extraction_miss_keeps_status (i : Nat) (doc : PageDoc)
    (h : doc.clipboardValue = none ∨ doc.clipboardValue = some "") :
    process_activation_id i (FetchResult.resp 200 doc) =
      { id := pyFormat06 i, secret_code := "Not Found", status := 200 } ∧
    ∀ fetch : Nat → FetchResult, fetch i = FetchResult.resp 200 doc →
      run_round fetch [i] =
        ([{ id := pyFormat06 i, secret_code := "Not Found", status := 200 }], []) ∧
      outcomeRow { id := pyFormat06 i, secret_code := "Not Found", status := 200 } =
        [pyFormat06 i, "Not Found", "200"] := by
  have hproc : process_activation_id i (FetchResult.resp 200 doc) =
      { id := pyFormat06 i, secret_code := "Not Found", status := 200 } := by
    rcases h with h | h <;> simp [process_activation_id, h]
  refine ⟨hproc, ?_⟩
  intro fetch hf
  constructor
  · simp [run_round, hf, hproc, statusTerminal]
  · have h200 : Nat.repr 200 = "200" := rfl
    simp only [outcomeRow]
    rw [h200]

/-- Witness for claim C6: identifier 2, a 200 page with no clipboard div. -/
theorem extraction_miss_keeps_status_witness :
    run_round (fun _ => FetchResult.resp 200 ⟨none, false, []⟩) [2] =
      ([{ id := "000002", secret_code := "Not Found", status := 200 }], []) :=
  ((extraction_miss_keeps_status 2 ⟨none, false, []⟩ (Or.inl rfl)).2
    (fun _ => FetchResult.resp 200 ⟨none, false, []⟩) rfl).1

/-- Claim C1: assuming the input identifiers are distinct and the output file
did not exist before the run, once the retry loop reaches Done the output csv
holds the header followed by exactly one record per input identifier — none
missing, none recorded twice — and every record's status column is "200" or
"404". -/
theorem sink_complete_after_done (oracle : Nat → Nat → FetchResult) (fuel : Nat)
    (input : Option (List (Option (Option Nat))))
    (final : List (List String)) (archived : Bool)
    (hnd : (get_ids_from_csv input).Nodup)
    (hrun : mainRun oracle fuel input none = some (final, archived)) :
    ∃ rows, final = headerRow :: rows ∧
      List.Perm (rows.map rowId) ((get_ids_from_csv input).map pyFormat06) ∧
      (rows.map rowId).Nodup ∧
      rows.length = (get_ids_from_csv input).length ∧
      (∀ i ∈ get_ids_from_csv input, (rows.map rowId).count (pyFormat06 i) = 1) ∧
      ∀ r ∈ rows, ∃ i v, r = [pyFormat06 i, v, "200"] ∨ r = [pyFormat06 i, v, "404"] := by
  unfold mainRun at hrun
  cases hloop : run_loop oracle fuel 1 (get_ids_from_csv input) (initial_sink none) with
  | none =>
    rw [hloop] at hrun
    simp at hrun
  | some sink =>
    rw [hloop] at hrun
    simp only [Option.some.injEq, Prod.mk.injEq] at hrun
    obtain ⟨hsink, _⟩ := hrun
    subst hsink
    obtain ⟨rows, hfinal, hperm, hshape⟩ := run_loop_spec oracle fuel 1 _ _ _ hloop
    have hnodup_ids : ((get_ids_from_csv input).map pyFormat06).Nodup :=
      hnd.map pyFormat06_injective
    have hnodup_rows : (rows.map rowId).Nodup := (hperm.nodup_iff).2 hnodup_ids
    refine ⟨rows, hfinal, hperm, hnodup_rows, ?_, ?_, hshape⟩
    · have := hperm.length_eq
      simpa using this
    · intro i hi
      rw [hperm.count_eq]
      exact List.count_eq_one_of_mem hnodup_ids (List.mem_map_of_mem pyFormat06 hi)

/-- Witness for claim C1: one identifier (3), one 404 round, fresh output
file; the final csv is the header plus the single record for 000003. -/
theorem sink_complete_after_done_witness :
    ∃ rows,
      [["Activation ID", "Secret Code", "Status Code"], ["000003", "Not Found", "404"]] =
        headerRow :: rows ∧
      List.Perm (rows.map rowId)
        ((get_ids_from_csv (some [some (some 3)])).map pyFormat06) ∧
      (rows.map rowId).Nodup ∧
      rows.length = (get_ids_from_csv (some [some (some 3)])).length ∧
      (∀ i ∈ get_ids_from_csv (some [some (some 3)]),
        (rows.map rowId).count (pyFormat06 i) = 1) ∧
      ∀ r ∈ rows, ∃ i v, r = [pyFormat06 i, v, "200"] ∨ r = [pyFormat06 i, v, "404"] :=
  sink_complete_after_done (fun _ _ => FetchResult.resp 404 ⟨none, false, []⟩) 1
    (some [some (some 3)])
    [["Activation ID", "Secret Code", "Status Code"], ["000003", "Not Found", "404"]]
    true (by decide) (by decide)

/-- Claim C4: the retry loop terminates exactly when some round leaves the
retry set empty (first conjunct, both directions of the fuel-indexed loop),
and there is no retry cap: an identifier whose status is neither 200 nor 404
on every attempt keeps the loop running for every fuel bound, so the archival
step is never reached (second conjunct). -/
theorem loop_done_iff_empty_retry_and_unbounded :
    (∀ oracle fuel iter ids sink,
      (∃ final, run_loop oracle fuel iter ids sink = some final) ↔
        ∃ k, k ≤ fuel ∧ pendingAfter oracle iter k ids = []) ∧
    (∀ oracle input existing fuel j, j ∈ get_ids_from_csv input →
      (∀ r, (process_activation_id j (oracle r j)).status ≠ 200 ∧
            (process_activation_id j (oracle r j)).status ≠ 404) →
      mainRun oracle fuel input existing = none) := by
  constructor
  · exact fun oracle fuel iter ids sink => run_loop_some_iff oracle fuel iter ids sink
  · intro oracle input existing fuel j hmem htr
    have htr' : ∀ r, statusTerminal (process_activation_id j (oracle r j)).status = false := by
      intro r
      have h := htr r
      simp [statusTerminal, h.1, h.2]
    unfold mainRun
    rw [run_loop_none_of_always_transient oracle j htr' fuel 1 _ _ hmem]

/-- Witness for claim C4: identifier 2 always raises an exception (status 0),
so with fuel 5 the run is still looping and no archive is produced. -/
theorem loop_unbounded_witness :
    mainRun (fun _ _ => FetchResult.exn) 5 (some [some (some 2)]) none = none :=
  loop_done_iff_empty_retry_and_unbounded.2 (fun _ _ => FetchResult.exn)
    (some [some (some 2)]) none 5 2 (by decide)
    (fun _ =>
      (by decide :
        (process_activation_id 2 FetchResult.exn).status ≠ 200 ∧
          (process_activation_id 2 FetchResult.exn).status ≠ 404))

/-- Claim C7 counterexample: an asset whose download attempt gets a non-200
response (nothing cached, no file written — a failed download) does not keep
the original remote URL: the reference is still rewritten to the local
assets path. -/
theorem asset_failed_download_counterexample :
    (download_asset false (some 500) "https://www.joinsecret.com/logo.png"
        "logo_a1b2c3d4.png").2 = false ∧
    (download_asset false (some 500) "https://www.joinsecret.com/logo.png"
        "logo_a1b2c3d4.png").1 ≠ "https://www.joinsecret.com/logo.png" ∧
    (download_asset false (some 500) "https://www.joinsecret.com/logo.png"
        "logo_a1b2c3d4.png").1 = "assets/logo_a1b2c3d4.png" := by
  refine ⟨rfl, ?_, rfl⟩
  decide

/-- Claim C7 amended: asset downloads are individually best-effort and never
surface as a fetch-level error (the rewrite maps every reference to a string,
one per reference); a download attempt that raises an exception leaves the
original remote URL in place, and a cached asset is not re-downloaded — but a
download answered with a non-200 status writes no file and still rewrites the
reference to the local assets path. -/
theorem asset_download_best_effort (url saveName : String) (fe : Bool) (net : Option Nat) :
    (net = none → fe = false → download_asset fe net url saveName = (url, false)) ∧
    (fe = true → download_asset fe net url saveName = ("assets/" ++ saveName, false)) ∧
    (∀ s, net = some s → s ≠ 200 → fe = false →
      download_asset fe net url saveName = ("assets/" ++ saveName, false)) ∧
    ∀ env sn refs, (rewrite_assets env sn refs).length = refs.length := by
  refine ⟨?_, ?_, ?_, ?_⟩
  · intro hnet hfe
    subst hnet
    subst hfe
    rfl
  · intro hfe
    subst hfe
    rfl
  · intro s hnet hs hfe
    subst hnet
    subst hfe
    simp [download_asset, hs]
  · intro env sn refs
    simp [rewrite_assets]

/-- Witness for claim C7 (amended): an exception during the asset request
leaves the original URL and writes nothing. -/
theorem asset_download_best_effort_witness :
    download_asset false none "https://www.joinsecret.com/app.css" "app_00ff00ff.css" =
      ("https://www.joinsecret.com/app.css", false) :=
  (asset_download_best_effort "https://www.joinsecret.com/app.css" "app_00ff00ff.css"
    false none).1 rfl rfl

/-- Claim C8: the durable sink is append-only — a fresh output file is
created holding exactly the header row and an existing file is left
untouched (startup); each round appends one row per settled outcome to the
existing contents; whatever has been written is a prefix of the sink at
every later point; and a terminating run leaves exactly one header row when
the file was new, and adds none (keeping the old rows as a prefix) when the
file already existed. -/
theorem sink_append_only_header_once :
    initial_sink none = [headerRow] ∧
    (∀ rows, initial_sink (some rows) = rows) ∧
    (∀ oracle iter ids sink, sinkAfter oracle iter 1 ids sink =
      sink ++ ((run_round (oracle iter) ids).1).map outcomeRow) ∧
    (∀ oracle k iter ids sink, sink <+: sinkAfter oracle iter k ids sink) ∧
    (∀ oracle fuel input final b, mainRun oracle fuel input none = some (final, b) →
      final.count headerRow = 1) ∧
    ∀ oracle fuel input rows0 final b,
      mainRun oracle fuel input (some rows0) = some (final, b) →
      rows0 <+: final ∧ final.count headerRow = rows0.count headerRow := by
  refine ⟨rfl, fun rows => rfl, fun oracle iter ids sink => rfl, ?_, ?_, ?_⟩
  · exact fun oracle k iter ids sink => prefix_sinkAfter oracle k iter ids sink
  · intro oracle fuel input final b hrun
    unfold mainRun at hrun
    cases hloop : run_loop oracle fuel 1 (get_ids_from_csv input) (initial_sink none) with
    | none =>
      rw [hloop] at hrun
      simp at hrun
    | some sink =>
      rw [hloop] at hrun
      simp only [Option.some.injEq, Prod.mk.injEq] at hrun
      obtain ⟨hsink, _⟩ := hrun
      subst hsink
      rw [count_headerRow_run_loop oracle fuel 1 _ _ _ hloop]
      decide
  · intro oracle fuel input rows0 final b hrun
    unfold mainRun at hrun
    cases hloop : run_loop oracle fuel 1 (get_ids_from_csv input) (initial_sink (some rows0)) with
    | none =>
      rw [hloop] at hrun
      simp at hrun
    | some sink =>
      rw [hloop] at hrun
      simp only [Option.some.injEq, Prod.mk.injEq] at hrun
      obtain ⟨hsink, _⟩ := hrun
      subst hsink
      obtain ⟨rows, hfinal, _, _⟩ := run_loop_spec oracle fuel 1 _ _ _ hloop
      constructor
      · rw [hfinal]
        exact List.prefix_append rows0 rows
      · exact count_headerRow_run_loop oracle fuel 1 _ _ _ hloop

/-- Witness for claim C8: a fresh-file run over identifier 4 ends with
exactly one header row in the csv. -/
theorem sink_append_only_header_once_witness :
    ([["Activation ID", "Secret Code", "Status Code"],
        ["000004", "Not Found", "404"]] : List (List String)).count headerRow = 1 :=
  sink_append_only_header_once.2.2.2.2.1 (fun _ _ => FetchResult.resp 404 ⟨none, false, []⟩)
    1 (some [some (some 4)])
    [["Activation ID", "Secret Code", "Status Code"], ["000004", "Not Found", "404"]]
    true (by decide)

/-- Claim C9 counterexample: when the input csv cannot be opened
(`FileNotFoundError`), the program does not stop before producing output —
`get_ids_from_csv` returns `[]`, `main` proceeds, writes the header row to a
fresh output file, runs zero rounds, and still reaches the archival step. -/
theorem missing_input_not_fatal_counterexample :
    get_ids_from_csv none = [] ∧
    mainRun (fun _ _ => FetchResult.exn) 0 none none = some ([headerRow], true) ∧
    mainRun (fun _ _ => FetchResult.exn) 0 none none ≠ none :=
  ⟨rfl, rfl, by decide⟩

/-- Claim C9 amended: inability to open the input file is caught rather than
fatal — the run proceeds with an empty identifier list: zero rounds, no data
records, but the header (when the output file is new) and the archive are
still produced; and a malformed input row (missing identifier column or
non-integer value) is skipped without aborting. -/
theorem missing_input_empty_run (oracle : Nat → Nat → FetchResult) (fuel : Nat)
    (existing : Option (List (List String))) :
    mainRun oracle fuel none existing = some (initial_sink existing, true) ∧
    ∀ (cell : Option (Option Nat)) (rows : List (Option (Option Nat))),
      (cell = none ∨ cell = some none) →
      get_ids_from_csv (some (cell :: rows)) = get_ids_from_csv (some rows) := by
  constructor
  · unfold mainRun
    have hloop :
        run_loop oracle fuel 1 (get_ids_from_csv none) (initial_sink existing) =
          some (initial_sink existing) := by
      cases fuel <;> simp [run_loop, get_ids_from_csv]
    rw [hloop]
  · intro cell rows h
    rcases h with h | h <;> subst h <;> simp [get_ids_from_csv]

/-- Witness for claim C9 (amended): a malformed first row is skipped. -/
theorem missing_input_empty_run_witness :
    get_ids_from_csv (some [none, some (some 5)]) = get_ids_from_csv (some [some (some 5)]) :=
  (missing_input_empty_run (fun _ _ => FetchResult.exn) 0 none).2 none
    [some (some 5)] (Or.inl rfl)

/-- Claim C10 counterexample: a page that returns 200 and whose clipboard
input value is the literal string "Error" produces a settled outcome with
payload "Error" and status 200, and the round writes that record into the
durable sink. -/
theorem error_payload_written_counterexample :
    ((run_round (fun _ => FetchResult.resp 200 ⟨some "Error", true, []⟩) [1]).1).map
        outcomeRow = [["000001", "Error", "200"]] := by
  decide

/-- Claim C10 amended: the error path pairs payload "Error" with status 0 and
is never persisted — any persisted "Error" payload can only be the page's own
extracted input value on a 200 response. Every settled outcome has status 200
or 404; its payload is the sentinel "Not Found" or the extracted input value;
and every outcome with any other status goes to the retry set instead of the
sink. -/
theorem error_payload_amended :
    (∀ i fr, (process_activation_id i fr).secret_code = "Error" →
      (process_activation_id i fr).status = 0 ∨
        ∃ doc, fr = FetchResult.resp 200 doc ∧ doc.clipboardValue = some "Error") ∧
    (∀ fetch ids o, o ∈ (run_round fetch ids).1 → o.status = 200 ∨ o.status = 404) ∧
    (∀ fetch ids o, o ∈ (run_round fetch ids).1 →
      o.secret_code = "Not Found" ∨
        ∃ i doc, i ∈ ids ∧ fetch i = FetchResult.resp 200 doc ∧
          doc.clipboardValue = some o.secret_code) ∧
    ∀ fetch ids i, i ∈ ids →
      statusTerminal (process_activation_id i (fetch i)).status = false →
      i ∈ (run_round fetch ids).2 := by
  refine ⟨?_, ?_, ?_, ?_⟩
  · intro i fr herr
    cases fr with
    | exn => exact Or.inl rfl
    | respThenExn s => exact Or.inl rfl
    | resp s doc =>
      cases hdoc : doc.clipboardValue with
      | none =>
        simp only [process_activation_id, hdoc] at herr
        simp at herr
      | some v =>
        simp only [process_activation_id, hdoc] at herr
        by_cases hcond : (s == 200 && v != "") = true
        · rw [if_pos hcond] at herr
          simp only at herr
          rw [Bool.and_eq_true, beq_iff_eq] at hcond
          refine Or.inr ⟨doc, ?_, ?_⟩
          · rw [hcond.1]
          · rw [hdoc, herr]
        · rw [if_neg hcond] at herr
          simp at herr
  · intro fetch ids o ho
    simp only [run_round_eq] at ho
    obtain ⟨i, hi, hoi⟩ := List.mem_map.1 ho
    have hterm := (List.mem_filter.1 hi).2
    rw [← hoi]
    simp only [statusTerminal, Bool.or_eq_true, beq_iff_eq] at hterm
    exact hterm
  · intro fetch ids o ho
    simp only [run_round_eq] at ho
    obtain ⟨i, hi, hoi⟩ := List.mem_map.1 ho
    have hmem := (List.mem_filter.1 hi).1
    cases hfr : fetch i with
    | exn =>
      have hterm := (List.mem_filter.1 hi).2
      rw [hfr] at hterm
      simp [statusTerminal, process_activation_id] at hterm
    | respThenExn s =>
      have hterm := (List.mem_filter.1 hi).2
      rw [hfr] at hterm
      simp [statusTerminal, process_activation_id] at hterm
    | resp s doc =>
      cases hdoc : doc.clipboardValue with
      | none =>
        left
        rw [← hoi, hfr]
        simp [process_activation_id, hdoc]
      | some v =>
        by_cases hcond : (s == 200 && v != "") = true
        · right
          have hs200 : s = 200 := by
            rw [Bool.and_eq_true, beq_iff_eq] at hcond
            exact hcond.1
          refine ⟨i, doc, hmem, ?_, ?_⟩
          · rw [hfr, hs200]
          · rw [hdoc, ← hoi, hfr]
            simp [process_activation_id, hdoc, hcond]
        · left
          rw [← hoi, hfr]
          simp only [process_activation_id, hdoc]
          rw [if_neg hcond]
  · intro fetch ids i hmem htr
    simp only [run_round_eq]
    exact List.mem_filter.2 ⟨hmem, by simp [htr]⟩

/-- Witness for claim C10 (amended): a 500 response routes identifier 9 to
the retry set instead of the sink. -/
theorem error_payload_amended_witness :
    9 ∈ (run_round (fun _ => FetchResult.resp 500 ⟨none, false, []⟩) [9]).2 :=
  error_payload_amended.2.2.2 (fun _ => FetchResult.resp 500 ⟨none, false, []⟩) [9] 9
    (by decide) (by decide)

end CCExt
